import Mathlib

/-!
# Verification of the dashGPT backend (Go) against its specification

Shallow embedding of the parts of the repository that the claims concern:

* `middleware/middleware.go` — the in-memory rate limiter (`RateLimiter`,
  the `visitor` record and the package-level `visitors` map);
* `handlers/chat.go` — the streaming chat relay (`SendMessage`,
  `streamClaudeResponse`, `createConversation`, `getConversationMessages`,
  `GetHistory`, `formatStreamEvent`).

Go strings are modelled as `List Char` (`Str`), Go `time.Time` / durations as
`Int` (one abstract tick unit; only differences and comparisons occur in the
source), and the relational store as in-memory lists of rows in insertion
order (`created_at` order equals insertion order, which is how the source
reads them back with `ORDER BY created_at ASC`).
-/

namespace DashGPT

/-- Go strings, modelled as lists of characters. -/
abbrev Str := List Char

/-- Boundary coercion from Lean string literals to the `Str` model. -/
def str (s : String) : Str := s.data

/-- The characters Go's `strings.TrimSpace` strips for ASCII input
(`unicode.IsSpace` on the ASCII range). -/
def isGoSpace (c : Char) : Bool :=
  c = ' ' || c = '\t' || c = '\n' || c = '\x0b' || c = '\x0c' || c = '\r'

/-- Model of `strings.TrimSpace` (ASCII behaviour): strip leading and trailing
whitespace. -/
def trimSpace (s : Str) : Str :=
  ((s.dropWhile isGoSpace).reverse.dropWhile isGoSpace).reverse

/-- Model of the `strings.HasPrefix` check: `isPre p s` is true iff `p` is a prefix
of `s`. -/
def isPre : Str → Str → Bool
  | [], _ => true
  | _ :: _, [] => false
  | p :: ps, c :: cs => p = c && isPre ps cs

/-- Model of `strings.Split(chunk, "\n")`: split on every newline, keeping empty
pieces (Go semantics: `Split("", "\n") = [""]`). -/
def splitOnNl : Str → List Str
  | [] => [[]]
  | c :: cs =>
    if c = '\n' then [] :: splitOnNl cs
    else
      match splitOnNl cs with
      | l :: ls => (c :: l) :: ls
      | [] => [[c]]

/-! ## Rate limiter (`middleware/middleware.go`)

```go
type visitor struct {
    lastSeen time.Time
    count    int
}

var (
    visitors = make(map[string]*visitor)
    mu       sync.RWMutex
)
```

`visitors` is a *package-level* variable: every handler produced by
`RateLimiter(limit, window)` closes over this one map, so the model threads a
single `VisitorMap` through every admit call regardless of which configured
instance performs it.  The mutex serialises the admit bodies, so one admit
call is one atomic step on the map. -/

/-- The `visitor` record of `middleware.go`. -/
structure Visitor where
  lastSeen : Int
  count : Nat
deriving DecidableEq, Repr

/-- The (single, package-level) `visitors` map, keyed by `r.RemoteAddr`. -/
def VisitorMap := Str → Option Visitor

/-- The initial empty `visitors` map. -/
def emptyVisitors : VisitorMap := fun _ => none

/-- Point update of the visitors map (`visitors[ip] = ...` / mutation of the
record `visitors[ip]` points to). -/
def updateVisitor (m : VisitorMap) (ip : Str) (v : Visitor) : VisitorMap :=
  fun k => if k = ip then some v else m k

/-- One admit decision of the handler returned by
`RateLimiter(requestsPerWindow, window)` in `middleware.go`, executed at time
`now` for client key `ip` on the shared map `visitors`.  Returns the decision
(`true` = request forwarded to `next`, `false` = 429 response) and the map
afterwards.  Faithful to the Go branch structure:

1. no record: create `{lastSeen: now, count: 1}`, admit;
2. `now - lastSeen > window`: reset to `{lastSeen: now, count: 1}`, admit;
3. `count >= requestsPerWindow`: deny, touching nothing;
4. otherwise increment `count`, set `lastSeen = now`, admit. -/
def rateLimiterAdmit (requestsPerWindow : Nat) (window : Int) (now : Int)
    (ip : Str) (visitors : VisitorMap) : Bool × VisitorMap :=
  match visitors ip with
  | none => (true, updateVisitor visitors ip ⟨now, 1⟩)
  | some v =>
    if window < now - v.lastSeen then
      (true, updateVisitor visitors ip ⟨now, 1⟩)
    else if requestsPerWindow ≤ v.count then
      (false, visitors)
    else
      (true, updateVisitor visitors ip ⟨now, v.count + 1⟩)

/-- Run a sequence of admit calls for one key at the given times, collecting
the decisions and the final map. -/
def runAdmits (requestsPerWindow : Nat) (window : Int) (ip : Str)
    (visitors : VisitorMap) : List Int → List Bool × VisitorMap
  | [] => ([], visitors)
  | t :: ts =>
    let r := rateLimiterAdmit requestsPerWindow window t ip visitors
    let rest := runAdmits requestsPerWindow window ip r.2 ts
    (r.1 :: rest.1, rest.2)

/-- The duration `time.Minute` expressed in the model's integer time unit (nanoseconds,
as in Go's `time.Duration`). -/
def minuteNs : Int := 60000000000

/-! ### Rate limiter lemmas -/

theorem updateVisitor_self (m : VisitorMap) (ip : Str) (v : Visitor) :
    updateVisitor m ip v ip = some v := by
  simp [updateVisitor]

theorem updateVisitor_updateVisitor (m : VisitorMap) (ip : Str) (a b : Visitor) :
    updateVisitor (updateVisitor m ip a) ip b = updateVisitor m ip b := by
  funext k
  simp only [updateVisitor]
  by_cases h : k = ip <;> simp [h]

theorem updateVisitor_eq_of_lookup (m : VisitorMap) (ip : Str) (v : Visitor)
    (h : m ip = some v) : updateVisitor m ip v = m := by
  funext k
  simp only [updateVisitor]
  by_cases hk : k = ip
  · subst hk; simp [h]
  · simp [hk]

theorem chain_le_of_mem {a : Int} {l : List Int}
    (h : List.Chain (fun p q => p ≤ q) a l) : ∀ b ∈ l, a ≤ b := by
  induction l generalizing a with
  | nil => simp
  | cons x xs ih =>
    rcases List.chain_cons.mp h with ⟨hax, hchain⟩
    intro b hb
    rcases List.mem_cons.mp hb with rfl | hb
    · exact hax
    · exact le_trans hax (ih hchain b hb)

/-- One denied admit call: an in-window visitor at or above the limit is
rejected and the map is returned untouched. -/
theorem admit_denied (limit : Nat) (window now L : Int) (ip : Str)
    (vs : VisitorMap) (c : Nat)
    (hvs : vs ip = some ⟨L, c⟩)
    (hin : now - L ≤ window)
    (hc : limit ≤ c) :
    rateLimiterAdmit limit window now ip vs = (false, vs) := by
  have hreset : ¬ window < now - L := not_lt.mpr hin
  simp [rateLimiterAdmit, hvs, hreset, hc]

/-- Running admits for a key whose record is `⟨L, c⟩`, at nondecreasing times
that all stay within `window` of `L`, with enough headroom below the limit:
every call is admitted, and the record ends at the last call time with the
count increased by the number of calls. -/
theorem runAdmits_admitted (limit : Nat) (window : Int) (ip : Str) :
    ∀ (ts : List Int) (vs : VisitorMap) (L : Int) (c : Nat),
      vs ip = some ⟨L, c⟩ →
      List.Chain (fun p q => p ≤ q) L ts →
      (∀ t ∈ ts, t - L ≤ window) →
      c + ts.length ≤ limit →
      runAdmits limit window ip vs ts
        = (List.replicate ts.length true,
           updateVisitor vs ip ⟨ts.getLastD L, c + ts.length⟩) := by
  intro ts
  induction ts with
  | nil =>
    intro vs L c hvs _ _ _
    simp [runAdmits, List.getLastD, updateVisitor_eq_of_lookup vs ip _ hvs]
  | cons t rest ih =>
    intro vs L c hvs hchain hwin hcount
    rcases List.chain_cons.mp hchain with ⟨hLt, hchain'⟩
    have hreset : ¬ window < t - L := not_lt.mpr (hwin t (by simp))
    have hdeny : ¬ limit ≤ c := by
      simp only [List.length_cons] at hcount
      omega
    have hstep : rateLimiterAdmit limit window t ip vs
        = (true, updateVisitor vs ip ⟨t, c + 1⟩) := by
      simp [rateLimiterAdmit, hvs, hreset, hdeny]
    have hwin' : ∀ u ∈ rest, u - t ≤ window := by
      intro u hu
      have h1 : u - L ≤ window := hwin u (by simp [hu])
      omega
    have hcount' : (c + 1) + rest.length ≤ limit := by
      simp only [List.length_cons] at hcount
      omega
    have hrec := ih (updateVisitor vs ip ⟨t, c + 1⟩) t (c + 1)
      (updateVisitor_self vs ip _) hchain' hwin' hcount'
    have harith : c + 1 + rest.length = c + (rest.length + 1) := by omega
    simp only [runAdmits, hstep, hrec, updateVisitor_updateVisitor,
      List.getLastD_cons, List.length_cons, List.replicate_succ, harith]

/-- Running admits for a key at its limit, at times within `window` of the
record's `lastSeen`, denies every call and leaves the map untouched. -/
theorem runAdmits_denied (limit : Nat) (window L : Int) (ip : Str) (c : Nat) :
    ∀ (ds : List Int) (vs : VisitorMap),
      vs ip = some ⟨L, c⟩ →
      limit ≤ c →
      (∀ t ∈ ds, t - L ≤ window) →
      runAdmits limit window ip vs ds = (List.replicate ds.length false, vs) := by
  intro ds
  induction ds with
  | nil => intro vs _ _ _; simp [runAdmits]
  | cons t rest ih =>
    intro vs hvs hc hwin
    have hstep : rateLimiterAdmit limit window t ip vs = (false, vs) :=
      admit_denied limit window t L ip vs c hvs (hwin t (by simp)) hc
    have hrec := ih vs hvs hc (fun u hu => hwin u (by simp [hu]))
    simp [runAdmits, hstep, hrec, List.replicate_succ]

/-- C1, amended part — the rate limiter admits up to `limit` requests from a
fresh key inside one window and then denies without mutating state, provided
`limit ≥ 1` (with `limit = 0` the very first request is still admitted, see
the counterexample). -/
theorem c1_window_quota (limit : Nat) (window : Int) (ip : Str)
    (t0 : Int) (ts : List Int) (t' : Int)
    (hchain : List.Chain (fun p q => p ≤ q) t0 ts)
    (hwin : ∀ t ∈ ts, t - t0 ≤ window)
    (hlen : ts.length + 1 ≤ limit)
    (ht' : t' - t0 ≤ window) :
    (runAdmits limit window ip emptyVisitors (t0 :: ts)).1
      = List.replicate (ts.length + 1) true
    ∧ (ts.length + 1 = limit →
        rateLimiterAdmit limit window t' ip
            (runAdmits limit window ip emptyVisitors (t0 :: ts)).2
          = (false, (runAdmits limit window ip emptyVisitors (t0 :: ts)).2)) := by
  have hstep0 : rateLimiterAdmit limit window t0 ip emptyVisitors
      = (true, updateVisitor emptyVisitors ip ⟨t0, 1⟩) := by
    simp [rateLimiterAdmit, emptyVisitors]
  have hrest := runAdmits_admitted limit window ip ts
    (updateVisitor emptyVisitors ip ⟨t0, 1⟩) t0 1
    (updateVisitor_self _ _ _) hchain hwin (by omega)
  have hrun : runAdmits limit window ip emptyVisitors (t0 :: ts)
      = (true :: List.replicate ts.length true,
         updateVisitor emptyVisitors ip ⟨ts.getLastD t0, 1 + ts.length⟩) := by
    simp [runAdmits, hstep0, hrest, updateVisitor_updateVisitor]
  constructor
  · simp [hrun, List.replicate]
  · intro hexact
    have hlast0 : t0 ≤ ts.getLastD t0 := by
      rcases List.mem_cons.mp (List.getLastD_mem_cons ts t0) with h | h
      · omega
      · exact chain_le_of_mem hchain _ h
    have hlook : (runAdmits limit window ip emptyVisitors (t0 :: ts)).2 ip
        = some ⟨ts.getLastD t0, limit⟩ := by
      rw [hrun]
      simp [updateVisitor_self]
      omega
    exact admit_denied limit window t' (ts.getLastD t0) ip _ limit hlook
      (by omega) (le_refl limit)

/-- C1 counterexample — the claim quantifies over *every* configuration
`(limit, window)`, but with `limit = 0` the code admits the very first
request from a fresh key (the fresh-visitor branch never consults the limit),
while the claim demands that the `(0+1)`-th request within the window be
denied. -/
theorem c1_counterexample :
    (rateLimiterAdmit 0 minuteNs 0 (str "1.2.3.4") emptyVisitors).1 = true := by
  rfl

/-- Witness for `c1_window_quota`: limit 2, window 10, two admits at times
0 and 1, then a denial at time 2 that leaves the map unchanged. -/
theorem c1_witness :
    (List.Chain (fun p q => p ≤ q) 0 [1]
      ∧ (∀ t ∈ [(1 : Int)], t - 0 ≤ 10)
      ∧ [(1 : Int)].length + 1 ≤ 2
      ∧ (2 : Int) - 0 ≤ 10)
    ∧ ((runAdmits 2 10 (str "k") emptyVisitors [0, 1]).1
        = List.replicate 2 true
      ∧ ([(1 : Int)].length + 1 = 2 →
          rateLimiterAdmit 2 10 2 (str "k")
              (runAdmits 2 10 (str "k") emptyVisitors [0, 1]).2
            = (false, (runAdmits 2 10 (str "k") emptyVisitors [0, 1]).2))) :=
  ⟨⟨List.Chain.cons (by norm_num) List.Chain.nil, by decide, by decide, by decide⟩,
   c1_window_quota 2 10 (str "k") 0 [1] 2
     (List.Chain.cons (by norm_num) List.Chain.nil)
     (by decide) (by decide) (by decide)⟩

/-- C10 — denied requests mutate nothing (in particular `lastSeen` stays at
the last *admitted* request's time), so however many denials happen inside
the window, a request arriving more than one window after the last admitted
one is freshly admitted with its count reset to 1. -/
theorem c10_denied_requests_do_not_extend_window (limit : Nat)
    (window L : Int) (ip : Str) (vs : VisitorMap) (c : Nat)
    (ds : List Int) (t' : Int)
    (hvs : vs ip = some ⟨L, c⟩)
    (hc : limit ≤ c)
    (hds : ∀ t ∈ ds, t - L ≤ window)
    (ht' : window < t' - L) :
    (runAdmits limit window ip vs ds).1 = List.replicate ds.length false
    ∧ (runAdmits limit window ip vs ds).2 = vs
    ∧ rateLimiterAdmit limit window t' ip (runAdmits limit window ip vs ds).2
        = (true, updateVisitor vs ip ⟨t', 1⟩) := by
  have hrun := runAdmits_denied limit window L ip c ds vs hvs hc hds
  refine ⟨by simp [hrun], by simp [hrun], ?_⟩
  rw [hrun]
  simp [rateLimiterAdmit, hvs, ht']

/-- Witness for `c10_denied_requests_do_not_extend_window`: a visitor at
limit 5 with `lastSeen = 0`, denied at times 3 and 7 inside the window 10,
is freshly admitted at time 11. -/
theorem c10_witness :
    ((updateVisitor emptyVisitors (str "k10") ⟨0, 5⟩) (str "k10") = some ⟨0, 5⟩
      ∧ 5 ≤ 5
      ∧ (∀ t ∈ [(3 : Int), 7], t - 0 ≤ 10)
      ∧ (10 : Int) < 11 - 0)
    ∧ ((runAdmits 5 10 (str "k10")
          (updateVisitor emptyVisitors (str "k10") ⟨0, 5⟩) [3, 7]).1
        = List.replicate 2 false
      ∧ (runAdmits 5 10 (str "k10")
          (updateVisitor emptyVisitors (str "k10") ⟨0, 5⟩) [3, 7]).2
        = updateVisitor emptyVisitors (str "k10") ⟨0, 5⟩
      ∧ rateLimiterAdmit 5 10 11 (str "k10")
          (runAdmits 5 10 (str "k10")
            (updateVisitor emptyVisitors (str "k10") ⟨0, 5⟩) [3, 7]).2
        = (true,
           updateVisitor (updateVisitor emptyVisitors (str "k10") ⟨0, 5⟩)
             (str "k10") ⟨11, 1⟩)) :=
  ⟨⟨by decide, by decide, by decide, by decide⟩,
   c10_denied_requests_do_not_extend_window 5 10 0 (str "k10")
     (updateVisitor emptyVisitors (str "k10") ⟨0, 5⟩) 5 [3, 7] 11
     (by decide) (by decide) (by decide) (by decide)⟩

/-- C5 counterexample — `visitors` is one package-level map shared by every
`RateLimiter` instance.  With the configurations from `main` (chat:
20/minute, auth: 5/minute), five requests admitted through the *chat*
limiter drive the shared record for the key to count 5, after which the very
first request through the *auth* limiter is denied; on an untouched map the
same auth request is admitted.  The claim says the chat admits can never
read or mutate the state the auth limiter consults, which would force both
outcomes to be equal. -/
theorem c5_counterexample :
    (rateLimiterAdmit 5 minuteNs 0 (str "9.9.9.9")
        (runAdmits 20 minuteNs (str "9.9.9.9") emptyVisitors
          [0, 0, 0, 0, 0]).2).1 = false
    ∧ (rateLimiterAdmit 5 minuteNs 0 (str "9.9.9.9") emptyVisitors).1 = true := by
  exact ⟨rfl, rfl⟩

/-- C5, amended — each route class passes its own `(limit, window)` to
`RateLimiter`, but all instances operate on the single package-level
`visitors` map: the record created for a key by an admit through instance A
(any `limitA`, `windowA`) is exactly the record instance B consults, so B
can deny a key it has never seen when A's traffic already filled B's quota. -/
theorem c5_shared_map (limitA limitB : Nat) (windowA windowB : Int)
    (ip : Str) (vs : VisitorMap) (t t' : Int)
    (hfresh : vs ip = none)
    (hB : limitB ≤ 1)
    (ht' : t' - t ≤ windowB) :
    (rateLimiterAdmit limitA windowA t ip vs).2 ip = some ⟨t, 1⟩
    ∧ rateLimiterAdmit limitB windowB t' ip
          (rateLimiterAdmit limitA windowA t ip vs).2
        = (false, (rateLimiterAdmit limitA windowA t ip vs).2) := by
  have hA : rateLimiterAdmit limitA windowA t ip vs
      = (true, updateVisitor vs ip ⟨t, 1⟩) := by
    simp [rateLimiterAdmit, hfresh]
  rw [hA]
  refine ⟨updateVisitor_self _ _ _, ?_⟩
  have hreset : ¬ windowB < t' - t := not_lt.mpr ht'
  simp [rateLimiterAdmit, updateVisitor_self, hreset, hB]

/-- Witness for `c5_shared_map`: instance A configured 20/minute, instance B
configured 1/minute, one shared key. -/
theorem c5_witness :
    (emptyVisitors (str "k5") = none ∧ 1 ≤ 1 ∧ (0 : Int) - 0 ≤ minuteNs)
    ∧ ((rateLimiterAdmit 20 minuteNs 0 (str "k5") emptyVisitors).2 (str "k5")
        = some ⟨0, 1⟩
      ∧ rateLimiterAdmit 1 minuteNs 0 (str "k5")
            (rateLimiterAdmit 20 minuteNs 0 (str "k5") emptyVisitors).2
          = (false, (rateLimiterAdmit 20 minuteNs 0 (str "k5") emptyVisitors).2)) :=
  ⟨⟨rfl, by decide, by decide⟩,
   c5_shared_map 20 1 minuteNs minuteNs (str "k5") emptyVisitors 0 0
     rfl (by decide) (by decide)⟩

/-! ## JSON values and parsing

`streamClaudeResponse` calls `json.Unmarshal([]byte(data), &streamResp)` with
`streamResp : map[string]interface{}`.  The model parses JSON values with an
executable recursive-descent routine over `Str`.  Numbers keep only their
integer part (the relay never reads a numeric field), fuel is generous enough
for any input of the protocol, and object lookup is first-match (the protocol
emits no duplicate keys). -/

/-- A parsed JSON value. -/
inductive Json where
  | jnull
  | jbool (b : Bool)
  | jnum (n : Int)
  | jstr (s : Str)
  | jarr (elems : List Json)
  | jobj (fields : List (Str × Json))

/-- JSON insignificant whitespace. -/
def isJsonWs (c : Char) : Bool :=
  c = ' ' || c = '\t' || c = '\n' || c = '\r'

/-- Value of one hexadecimal digit, by code point: digits are 48–57,
lowercase a–f are 97–102, uppercase A–F are 65–70. -/
def hexVal (c : Char) : Option Nat :=
  let n := c.toNat
  if 48 ≤ n && n ≤ 57 then some (n - 48)
  else if 97 ≤ n && n ≤ 102 then some (n - 87)
  else if 65 ≤ n && n ≤ 70 then some (n - 55)
  else none

/-- Scan the body of a JSON string literal (the opening quote already
consumed), decoding escapes; returns the decoded characters and the input
after the closing quote. -/
def scanStringBody : Nat → Str → Option (Str × Str)
  | 0, _ => none
  | _, [] => none
  | fuel + 1, c :: cs =>
    if c = '"' then some ([], cs)
    else if c = '\\' then
      match cs with
      | [] => none
      | e :: cs' =>
        if e = 'u' then
          match cs' with
          | h1 :: h2 :: h3 :: h4 :: cs'' =>
            match hexVal h1, hexVal h2, hexVal h3, hexVal h4 with
            | some a, some b, some c4, some d =>
              let code := ((a * 16 + b) * 16 + c4) * 16 + d
              match scanStringBody fuel cs'' with
              | some (s, rest) => some (Char.ofNat code :: s, rest)
              | none => none
            | _, _, _, _ => none
          | _ => none
        else
          let dec : Option Char :=
            if e = '"' then some '"'
            else if e = '\\' then some '\\'
            else if e = '/' then some '/'
            else if e = 'n' then some '\n'
            else if e = 't' then some '\t'
            else if e = 'r' then some '\r'
            else if e = 'b' then some '\x08'
            else if e = 'f' then some '\x0c'
            else none
          match dec with
          | some d =>
            match scanStringBody fuel cs' with
            | some (s, rest) => some (d :: s, rest)
            | none => none
          | none => none
    else
      match scanStringBody fuel cs with
      | some (s, rest) => some (c :: s, rest)
      | none => none

/-- Decimal digits to a natural number (code point of `'0'` is 48). -/
def digitsToNat (ds : List Char) : Nat :=
  ds.foldl (fun acc c => 10 * acc + (c.toNat - 48)) 0

/-- Scan a JSON number, keeping the integer part and consuming any fraction
and exponent. -/
def scanNumber (s : Str) : Option (Int × Str) :=
  let head := match s with
    | '-' :: rest => (true, rest)
    | _ => (false, s)
  let neg := head.1
  let s1 := head.2
  let ds := s1.takeWhile (fun c => c.isDigit)
  let s2 := s1.dropWhile (fun c => c.isDigit)
  if ds = [] then none
  else
    let n : Int := Int.ofNat (digitsToNat ds)
    let s3 : Str := match s2 with
      | '.' :: rest =>
        let fs := rest.takeWhile (fun c : Char => c.isDigit)
        if fs = [] then '.' :: rest
        else rest.dropWhile (fun c : Char => c.isDigit)
      | _ => s2
    let s4 : Str := match s3 with
      | e :: rest =>
        if e = 'e' || e = 'E' then
          let rest2 : Str := match rest with
            | c :: r => if c = '+' || c = '-' then r else c :: r
            | [] => []
          let es := rest2.takeWhile (fun c : Char => c.isDigit)
          if es = [] then s3
          else rest2.dropWhile (fun c : Char => c.isDigit)
        else s3
      | [] => s3
    some (if neg then -n else n, s4)

mutual

/-- Parse one JSON value, returning it and the remaining input. -/
def parseValue : Nat → Str → Option (Json × Str)
  | 0, _ => none
  | fuel + 1, s =>
    match s.dropWhile isJsonWs with
    | [] => none
    | c :: cs =>
      if c = '\x7b' then
        match cs.dropWhile isJsonWs with
        | '\x7d' :: rest => some (Json.jobj [], rest)
        | body =>
          match parseMembers fuel body with
          | some (fields, rest) =>
            match rest.dropWhile isJsonWs with
            | '\x7d' :: rest2 => some (Json.jobj fields, rest2)
            | _ => none
          | none => none
      else if c = '[' then
        match cs.dropWhile isJsonWs with
        | ']' :: rest => some (Json.jarr [], rest)
        | body =>
          match parseElements fuel body with
          | some (elems, rest) =>
            match rest.dropWhile isJsonWs with
            | ']' :: rest2 => some (Json.jarr elems, rest2)
            | _ => none
          | none => none
      else if c = '"' then
        match scanStringBody (cs.length + 1) cs with
        | some (lit, rest) => some (Json.jstr lit, rest)
        | none => none
      else if isPre (str "true") (c :: cs) then
        some (Json.jbool true, (c :: cs).drop 4)
      else if isPre (str "false") (c :: cs) then
        some (Json.jbool false, (c :: cs).drop 5)
      else if isPre (str "null") (c :: cs) then
        some (Json.jnull, (c :: cs).drop 4)
      else
        match scanNumber (c :: cs) with
        | some (n, rest) => some (Json.jnum n, rest)
        | none => none

/-- Parse a nonempty comma-separated list of `"key": value` members. -/
def parseMembers : Nat → Str → Option (List (Str × Json) × Str)
  | 0, _ => none
  | fuel + 1, s =>
    match s.dropWhile isJsonWs with
    | '"' :: cs =>
      match scanStringBody (cs.length + 1) cs with
      | some (key, rest) =>
        match rest.dropWhile isJsonWs with
        | ':' :: rest2 =>
          match parseValue fuel rest2 with
          | some (v, rest3) =>
            match rest3.dropWhile isJsonWs with
            | ',' :: rest4 =>
              match parseMembers fuel rest4 with
              | some (fields, rest5) => some ((key, v) :: fields, rest5)
              | none => none
            | _ => some ([(key, v)], rest3)
          | none => none
        | _ => none
      | none => none
    | _ => none

/-- Parse a nonempty comma-separated list of array elements. -/
def parseElements : Nat → Str → Option (List Json × Str)
  | 0, _ => none
  | fuel + 1, s =>
    match parseValue fuel s with
    | some (v, rest) =>
      match rest.dropWhile isJsonWs with
      | ',' :: rest2 =>
        match parseElements fuel rest2 with
        | some (vs, rest3) => some (v :: vs, rest3)
        | none => none
      | _ => some ([v], rest)
    | none => none

end

/-- Model of `json.Unmarshal`: parse one JSON value and reject trailing non-whitespace
input. -/
def parseJson (s : Str) : Option Json :=
  match parseValue (2 * s.length + 2) s with
  | some (v, rest) => if rest.dropWhile isJsonWs = [] then some v else none
  | none => none

/-- First-match lookup in a parsed JSON object (`streamResp["key"]`). -/
def lookupField : List (Str × Json) → Str → Option Json
  | [], _ => none
  | (k, v) :: fs, key => if k = key then some v else lookupField fs key

/-! ## Streaming relay (`handlers/chat.go`) -/

/-- A downstream SSE event as built by `formatStreamEvent` — the JSON object
`{type, text, conversationId}` where `text` and `conversationId` carry
`omitempty`: the serialized frame has the field present iff the `Str` is
nonempty. -/
structure StreamEvent where
  eventType : Str
  text : Str
  conversationId : Str
deriving DecidableEq, Repr

/-- The function `formatStreamEvent(eventType, text, conversationID)` of `chat.go`. -/
def formatStreamEvent (eventType text conversationID : Str) : StreamEvent :=
  ⟨eventType, text, conversationID⟩

/-- The mutable state of the read loop in `streamClaudeResponse`: the
`fullResponse` accumulator and the `content` events written downstream so
far. -/
structure StreamAcc where
  fullResponse : Str
  events : List StreamEvent
deriving DecidableEq, Repr

/-- Extract the text of one frame payload the way the read loop does:
`json.Unmarshal` into a map, require `streamResp["type"] ==
"content_block_delta"`, require `delta` to be an object and its `text` field
a string. -/
def parseStreamFrame (data : Str) : Option Str :=
  match parseJson data with
  | some (Json.jobj fields) =>
    match lookupField fields (str "type") with
    | some (Json.jstr t) =>
      if t = str "content_block_delta" then
        match lookupField fields (str "delta") with
        | some (Json.jobj dfields) =>
          match lookupField dfields (str "text") with
          | some (Json.jstr txt) => some txt
          | _ => none
        | _ => none
      else none
    | _ => none
  | _ => none

/-- The inner `for _, line := range lines` loop of `streamClaudeResponse`,
for the lines of ONE read chunk: trim each line, skip lines without the
`"data: "` tag, stop at the `[DONE]` sentinel (Go's `break` leaves only this
inner loop), and for a content delta append the text to the accumulator and
emit a `content` event (with empty `conversationId`) downstream. -/
def processLines : List Str → StreamAcc → StreamAcc
  | [], acc => acc
  | rawLine :: rest, acc =>
    let line := trimSpace rawLine
    if isPre (str "data: ") line = false then processLines rest acc
    else
      let dataPart := line.drop 6
      if dataPart = str "[DONE]" then acc
      else
        match parseStreamFrame dataPart with
        | some txt =>
          processLines rest
            ⟨acc.fullResponse ++ txt,
             acc.events ++ [formatStreamEvent (str "content") txt []]⟩
        | none => processLines rest acc

/-- The outer read loop of `streamClaudeResponse`: each successful
`reader.Read` yields one chunk, which is split on `"\n"` and fed to the
inner loop; the loop ends at `io.EOF`, i.e. after the last chunk. -/
def processChunks : List Str → StreamAcc → StreamAcc
  | [], acc => acc
  | chunk :: rest, acc => processChunks rest (processLines (splitOnNl chunk) acc)

/-- The successful-HTTP-status body of `streamClaudeResponse`: consume the
upstream body (given as the list of chunks the reads return, in order) and
return the accumulated response together with the forwarded events. -/
def streamClaudeResponse (chunks : List Str) : StreamAcc :=
  processChunks chunks ⟨[], []⟩

/-! ## Store rows and the chat handlers -/

/-- A `conversations` row (the fields the claims concern). -/
structure Conversation where
  id : Str
  userId : Str
  title : Str
deriving DecidableEq, Repr

/-- A `messages` row (the fields the claims concern).  `created_at` order is
insertion order, which is how `getConversationMessages` reads rows back. -/
structure Message where
  conversationId : Str
  role : Str
  content : Str
deriving DecidableEq, Repr

/-- The relational store: rows in insertion order, plus a counter feeding
fresh conversation ids. -/
structure Db where
  conversations : List Conversation
  messages : List Message
  nextId : Nat
deriving DecidableEq, Repr

/-- The title computation of `createConversation`:
`if len(title) > 50 { title = title[:47] + "..." }`. -/
def conversationTitle (firstMessage : Str) : Str :=
  if 50 < firstMessage.length then firstMessage.take 47 ++ str "..."
  else firstMessage

/-- A fresh conversation id (Postgres `gen_random_uuid()`, of which only
freshness and nonemptiness matter; modelled from the counter). -/
def freshConversationId (db : Db) : Str :=
  'c' :: List.replicate db.nextId 'I'

/-- The function `createConversation(userID, firstMessage)`: insert a `conversations` row
titled with the truncated first message, returning the fresh id. -/
def createConversation (db : Db) (userID firstMessage : Str) : Str × Db :=
  let title := conversationTitle firstMessage
  let id := freshConversationId db
  (id,
   { db with
      conversations := db.conversations ++ [⟨id, userID, title⟩],
      nextId := db.nextId + 1 })

/-- The statement `INSERT INTO messages (conversation_id, role, content) VALUES (...)`. -/
def insertMessage (db : Db) (conversationID role content : Str) : Db :=
  { db with messages := db.messages ++ [⟨conversationID, role, content⟩] }

/-- The query of `getConversationMessages`: the conversation's messages in `created_at`
(= insertion) order. -/
def getConversationMessages (db : Db) (conversationID : Str) : List Message :=
  db.messages.filter (fun m => m.conversationId == conversationID)

/-- The decoded request body of `SendMessage`. -/
structure ChatRequest where
  message : Str
  conversationId : Str

/-- The upstream call as seen by `streamClaudeResponse`: either a non-200
response (whose body feeds the returned error) or a streamed body read as a
list of chunks ending in `io.EOF`.  (Transport errors mid-stream behave like
the non-200 case for the caller: an `error` event and no assistant row.) -/
inductive UpstreamResult where
  | httpError (body : Str)
  | stream (chunks : List Str)

/-- What `SendMessage` sent to the client: either an HTTP error before the
event stream started, or the SSE frames in emission order. -/
inductive SendOutcome where
  | httpError (status : Nat) (msg : Str)
  | streamed (events : List StreamEvent)
deriving DecidableEq, Repr

/-- The observable result of one `SendMessage` call: the store afterwards and
what was sent downstream. -/
structure SendResult where
  db : Db
  outcome : SendOutcome
deriving DecidableEq, Repr

/-- The handler `SendMessage` of `chat.go` (store writes never fail in the model; the
claims under verification are about its behaviour when they succeed):
authorize, validate the message, create the conversation when no id was
given, persist the `user` row, emit `start`, then either relay the upstream
stream and persist the `assistant` row followed by `end`, or emit an `error`
frame carrying the upstream failure. -/
def sendMessage (db : Db) (userID : Str) (req : ChatRequest)
    (upstream : UpstreamResult) : SendResult :=
  if userID = [] then ⟨db, .httpError 401 (str "Unauthorized")⟩
  else if req.message = [] then
    ⟨db, .httpError 400 (str "Message is required")⟩
  else
    let cdb :=
      if req.conversationId = [] then createConversation db userID req.message
      else (req.conversationId, db)
    let conversationID := cdb.1
    let db2 := insertMessage cdb.2 conversationID (str "user") req.message
    let startEvt := formatStreamEvent (str "start") [] conversationID
    match upstream with
    | .httpError body =>
      ⟨db2,
       .streamed [startEvt,
         formatStreamEvent (str "error") (str "Claude API error: " ++ body)
           conversationID]⟩
    | .stream chunks =>
      let acc := streamClaudeResponse chunks
      let db3 := insertMessage db2 conversationID (str "assistant")
        acc.fullResponse
      ⟨db3,
       .streamed ([startEvt] ++ acc.events
         ++ [formatStreamEvent (str "end") [] conversationID])⟩

/-- The outcome of `GetHistory` of `chat.go`. -/
inductive HistoryResult where
  | unauthorized
  | badRequest
  | notFound
  | ok (messages : List Message)
deriving DecidableEq, Repr

/-- The handler `GetHistory`: authorize, require a conversation id, run the
`SELECT EXISTS(SELECT 1 FROM conversations WHERE id = $1 AND user_id = $2)`
ownership check, and only then return the rows; a failed check is the single
404 "Conversation not found" outcome. -/
def getHistory (db : Db) (userID conversationID : Str) : HistoryResult :=
  if userID = [] then .unauthorized
  else if conversationID = [] then .badRequest
  else if ∃ c ∈ db.conversations, c.id = conversationID ∧ c.userId = userID then
    .ok (getConversationMessages db conversationID)
  else .notFound

/-! ### Stream processing lemmas -/

/-- The concatenation, in emission order, of the texts of the `content`
events in a downstream event list. -/
def joinTexts (es : List StreamEvent) : Str :=
  ((es.filter fun e => e.eventType == str "content").map fun e => e.text).flatten

/-- The inner line loop only appends to the accumulator and to the emitted
events; its contribution does not depend on what was accumulated before. -/
theorem processLines_acc (ls : List Str) : ∀ acc : StreamAcc,
    processLines ls acc
      = ⟨acc.fullResponse ++ (processLines ls ⟨[], []⟩).fullResponse,
         acc.events ++ (processLines ls ⟨[], []⟩).events⟩ := by
  induction ls with
  | nil => intro acc; simp [processLines]
  | cons l rest ih =>
    intro acc
    simp only [processLines]
    by_cases htag : isPre (str "data: ") (trimSpace l) = false
    · simp only [htag, if_pos rfl]
      rw [ih acc, ih ⟨[], []⟩]
      simp
    · simp only [if_neg htag]
      by_cases hdone : (trimSpace l).drop 6 = str "[DONE]"
      · simp [hdone]
      · simp only [if_neg hdone]
        cases hp : parseStreamFrame ((trimSpace l).drop 6) with
        | some txt =>
          simp only
          rw [ih, ih ⟨[] ++ txt, [] ++ [formatStreamEvent (str "content") txt []]⟩]
          simp
        | none =>
          simp only
          rw [ih acc, ih ⟨[], []⟩]

/-- Everything the inner line loop emits is a `content` event with empty
`conversationId`, and the accumulator is exactly the concatenation of the
emitted texts in order. -/
theorem processLines_events (ls : List Str) :
    (∀ e ∈ (processLines ls ⟨[], []⟩).events,
        e.eventType = str "content" ∧ e.conversationId = [])
    ∧ (processLines ls ⟨[], []⟩).fullResponse
        = ((processLines ls ⟨[], []⟩).events.map fun e => e.text).flatten := by
  induction ls with
  | nil => simp [processLines]
  | cons l rest ih =>
    simp only [processLines]
    by_cases htag : isPre (str "data: ") (trimSpace l) = false
    · simpa [htag] using ih
    · simp only [if_neg htag]
      by_cases hdone : (trimSpace l).drop 6 = str "[DONE]"
      · simp [hdone]
      · simp only [if_neg hdone]
        cases hp : parseStreamFrame ((trimSpace l).drop 6) with
        | some txt =>
          simp only
          rw [processLines_acc rest ⟨[] ++ txt, [] ++ [formatStreamEvent (str "content") txt []]⟩]
          constructor
          · intro e he
            simp [formatStreamEvent] at he
            rcases he with rfl | he
            · exact ⟨rfl, rfl⟩
            · exact ih.1 e he
          · simp [formatStreamEvent, ih.2]
        | none => simpa using ih

/-- The outer read loop likewise only appends. -/
theorem processChunks_acc (cs : List Str) : ∀ acc : StreamAcc,
    processChunks cs acc
      = ⟨acc.fullResponse ++ (processChunks cs ⟨[], []⟩).fullResponse,
         acc.events ++ (processChunks cs ⟨[], []⟩).events⟩ := by
  induction cs with
  | nil => intro acc; simp [processChunks]
  | cons c rest ih =>
    intro acc
    simp only [processChunks]
    rw [processLines_acc (splitOnNl c) acc, ih, processLines_acc (splitOnNl c) ⟨[], []⟩,
      ih ⟨[] ++ _, [] ++ _⟩]
    simp

/-- Invariant of `streamClaudeResponse`: all forwarded events are `content`
events with empty `conversationId`, and the returned `fullResponse` is the
concatenation of their texts in emission order. -/
theorem streamClaudeResponse_spec (cs : List Str) :
    (∀ e ∈ (streamClaudeResponse cs).events,
        e.eventType = str "content" ∧ e.conversationId = [])
    ∧ (streamClaudeResponse cs).fullResponse
        = ((streamClaudeResponse cs).events.map fun e => e.text).flatten := by
  induction cs with
  | nil => simp [streamClaudeResponse, processChunks]
  | cons c rest ih =>
    have hstep : streamClaudeResponse (c :: rest)
        = ⟨(processLines (splitOnNl c) ⟨[], []⟩).fullResponse
             ++ (streamClaudeResponse rest).fullResponse,
           (processLines (splitOnNl c) ⟨[], []⟩).events
             ++ (streamClaudeResponse rest).events⟩ := by
      unfold streamClaudeResponse
      simp only [processChunks]
      rw [processChunks_acc rest (processLines (splitOnNl c) ⟨[], []⟩)]
    have hl := processLines_events (splitOnNl c)
    rw [hstep]
    constructor
    · intro e he
      simp only [List.mem_append] at he
      rcases he with he | he
      · exact hl.1 e he
      · exact ih.1 e he
    · show (processLines (splitOnNl c) ⟨[], []⟩).fullResponse
          ++ (streamClaudeResponse rest).fullResponse
        = (((processLines (splitOnNl c) ⟨[], []⟩).events
            ++ (streamClaudeResponse rest).events).map fun e => e.text).flatten
      rw [List.map_append, List.flatten_append, hl.2, ih.2]

/-- A `content`-only event list passes the `content` filter unchanged. -/
theorem filter_content_of_all (es : List StreamEvent)
    (h : ∀ e ∈ es, e.eventType = str "content") :
    es.filter (fun e => e.eventType == str "content") = es :=
  List.filter_eq_self.mpr fun e he => by simp [h e he]

/-- Computing `joinTexts` over a full downstream frame sequence
`start · contents · end` sees only the contents. -/
theorem joinTexts_frames (cid : Str) (es : List StreamEvent)
    (h : ∀ e ∈ es, e.eventType = str "content") :
    joinTexts ([formatStreamEvent (str "start") [] cid] ++ es
        ++ [formatStreamEvent (str "end") [] cid])
      = (es.map fun e => e.text).flatten := by
  unfold joinTexts
  rw [List.filter_append, List.filter_append, filter_content_of_all es h]
  have hs : ((str "start" : Str) == str "content") = false := by decide
  have he : ((str "end" : Str) == str "content") = false := by decide
  simp [List.filter, formatStreamEvent, hs, he]

/-- C2 — a relay call with a nonempty inbound message persists exactly one
`user` row carrying the message; on a streamed upstream (no upstream error)
it additionally persists exactly one `assistant` row whose content is the
concatenation, in emission order, of the texts of the forwarded `content`
events, while on an upstream HTTP error only the `user` row is written. -/
theorem c2_round_trip (db : Db) (userID msg convId : Str)
    (hu : userID ≠ []) (hm : msg ≠ []) :
    (∀ chunks : List Str,
      ∃ cid evs,
        (sendMessage db userID ⟨msg, convId⟩ (.stream chunks)).outcome
          = .streamed evs
        ∧ (sendMessage db userID ⟨msg, convId⟩ (.stream chunks)).db.messages
            = db.messages
              ++ [⟨cid, str "user", msg⟩, ⟨cid, str "assistant", joinTexts evs⟩])
    ∧ (∀ body : Str,
        ∃ cid,
          (sendMessage db userID ⟨msg, convId⟩ (.httpError body)).db.messages
            = db.messages ++ [⟨cid, str "user", msg⟩]) := by
  constructor
  · intro chunks
    have hspec := streamClaudeResponse_spec chunks
    by_cases hc : convId = []
    · refine ⟨freshConversationId db,
        [formatStreamEvent (str "start") [] (freshConversationId db)]
          ++ (streamClaudeResponse chunks).events
          ++ [formatStreamEvent (str "end") [] (freshConversationId db)],
        ?_, ?_⟩
      · simp [sendMessage, hu, hm, hc, createConversation, insertMessage]
      · rw [joinTexts_frames _ _ (fun e he => (hspec.1 e he).1)]
        simp [sendMessage, hu, hm, hc, createConversation, insertMessage,
          hspec.2]
    · refine ⟨convId,
        [formatStreamEvent (str "start") [] convId]
          ++ (streamClaudeResponse chunks).events
          ++ [formatStreamEvent (str "end") [] convId],
        ?_, ?_⟩
      · simp [sendMessage, hu, hm, hc, insertMessage]
      · rw [joinTexts_frames _ _ (fun e he => (hspec.1 e he).1)]
        simp [sendMessage, hu, hm, hc, insertMessage, hspec.2]
  · intro body
    by_cases hc : convId = []
    · exact ⟨freshConversationId db,
        by simp [sendMessage, hu, hm, hc, createConversation, insertMessage]⟩
    · exact ⟨convId, by simp [sendMessage, hu, hm, hc, insertMessage]⟩

/-- Witness for `c2_round_trip`: empty store, user `"u"`, message `"hi"`, no
conversation id. -/
theorem c2_witness :
    (str "u" ≠ ([] : Str) ∧ str "hi" ≠ ([] : Str))
    ∧ ((∀ chunks : List Str,
        ∃ cid evs,
          (sendMessage ⟨[], [], 0⟩ (str "u") ⟨str "hi", []⟩
              (.stream chunks)).outcome
            = .streamed evs
          ∧ (sendMessage ⟨[], [], 0⟩ (str "u") ⟨str "hi", []⟩
              (.stream chunks)).db.messages
              = ([] : List Message)
                ++ [⟨cid, str "user", str "hi"⟩,
                    ⟨cid, str "assistant", joinTexts evs⟩])
      ∧ (∀ body : Str,
          ∃ cid,
            (sendMessage ⟨[], [], 0⟩ (str "u") ⟨str "hi", []⟩
                (.httpError body)).db.messages
              = ([] : List Message) ++ [⟨cid, str "user", str "hi"⟩])) :=
  ⟨⟨by decide, by decide⟩,
   c2_round_trip ⟨[], [], 0⟩ (str "u") (str "hi") [] (by decide) (by decide)⟩

/-! ### C3: the `[DONE]` sentinel -/

/-- C3 counterexample — the `break` on `[DONE]` leaves only the inner
per-chunk line loop: a content-delta frame arriving in a *later* read chunk
than the sentinel is still processed and forwarded, while the claim demands
that nothing after the sentinel frame be processed or forwarded. -/
theorem c3_counterexample :
    (streamClaudeResponse
        [str "data: [DONE]\n",
         str "data: \x7b\"type\":\"content_block_delta\",\"delta\":\x7b\"text\":\"X\"\x7d\x7d\n"]).events
      = [⟨str "content", str "X", []⟩]
    ∧ (streamClaudeResponse
        [str "data: [DONE]\n",
         str "data: \x7b\"type\":\"content_block_delta\",\"delta\":\x7b\"text\":\"X\"\x7d\x7d\n"]).events
      ≠ [] := by
  exact ⟨by decide, by decide⟩

/-- Hitting a `[DONE]` line stops the inner line loop: the lines before it
are processed, everything after it in the same line list is skipped. -/
theorem processLines_stops_at_done (d : Str)
    (hd1 : isPre (str "data: ") (trimSpace d) = true)
    (hd2 : (trimSpace d).drop 6 = str "[DONE]") :
    ∀ (pre : List Str) (post : List Str) (acc : StreamAcc),
      (∀ l ∈ pre, ¬(isPre (str "data: ") (trimSpace l) = true
        ∧ (trimSpace l).drop 6 = str "[DONE]")) →
      processLines (pre ++ d :: post) acc = processLines pre acc := by
  intro pre
  induction pre with
  | nil =>
    intro post acc _
    simp only [List.nil_append, processLines]
    simp [hd1, hd2]
  | cons l pre' ih =>
    intro post acc hpre
    have hl := hpre l (by simp)
    simp only [List.cons_append, processLines]
    by_cases htag : isPre (str "data: ") (trimSpace l) = false
    · simp only [htag, if_pos rfl]
      exact ih post acc fun x hx => hpre x (by simp [hx])
    · have htag' : isPre (str "data: ") (trimSpace l) = true := by
        revert htag
        cases isPre (str "data: ") (trimSpace l) <;> simp
      have hdone : ¬ (trimSpace l).drop 6 = str "[DONE]" :=
        fun h => hl ⟨htag', h⟩
      simp only [if_neg htag, if_neg hdone]
      cases hp : parseStreamFrame ((trimSpace l).drop 6) with
      | some txt => exact ih post _ fun x hx => hpre x (by simp [hx])
      | none => exact ih post acc fun x hx => hpre x (by simp [hx])

/-- C3, amended — a `[DONE]` frame ends processing of the *remaining lines of
the current read chunk* only: the chunk's lines before the sentinel are
processed, the lines after it in that chunk are skipped, and all subsequent
read chunks are consumed and processed normally. -/
theorem c3_done_ends_chunk_not_stream (chunk : Str) (pre post : List Str)
    (d : Str) (rest : List Str) (acc : StreamAcc)
    (hsplit : splitOnNl chunk = pre ++ d :: post)
    (hd1 : isPre (str "data: ") (trimSpace d) = true)
    (hd2 : (trimSpace d).drop 6 = str "[DONE]")
    (hpre : ∀ l ∈ pre, ¬(isPre (str "data: ") (trimSpace l) = true
      ∧ (trimSpace l).drop 6 = str "[DONE]")) :
    processChunks (chunk :: rest) acc
      = processChunks rest (processLines pre acc) := by
  simp only [processChunks, hsplit]
  rw [processLines_stops_at_done d hd1 hd2 pre post acc hpre]

/-- Witness for `c3_done_ends_chunk_not_stream`: a chunk whose middle line is
the sentinel, followed by one further chunk. -/
theorem c3_witness :
    (splitOnNl (str "x\ndata: [DONE]\ny")
        = [str "x"] ++ str "data: [DONE]" :: [str "y"]
      ∧ isPre (str "data: ") (trimSpace (str "data: [DONE]")) = true
      ∧ (trimSpace (str "data: [DONE]")).drop 6 = str "[DONE]"
      ∧ (∀ l ∈ [str "x"], ¬(isPre (str "data: ") (trimSpace l) = true
          ∧ (trimSpace l).drop 6 = str "[DONE]")))
    ∧ processChunks (str "x\ndata: [DONE]\ny" :: [str "data: later\n"])
          ⟨[], []⟩
        = processChunks [str "data: later\n"]
            (processLines [str "x"] ⟨[], []⟩) :=
  ⟨⟨by decide, by decide, by decide, by decide⟩,
   c3_done_ends_chunk_not_stream (str "x\ndata: [DONE]\ny") [str "x"]
     [str "y"] (str "data: [DONE]") [str "data: later\n"] ⟨[], []⟩
     (by decide) (by decide) (by decide) (by decide)⟩

/-! ### C4: chunk-boundary sensitivity -/

/-- C4 counterexample — the read loop splits each 4096-byte read chunk on
newlines independently, with no partial-line buffer carried between reads.
A well-formed content-delta frame whose bytes are split across two reads is
therefore dropped: its first part fails JSON decoding, its second part lacks
the `"data: "` tag.  The same bytes in a single read are processed once, so
the output is not invariant under the split, contradicting the claim. -/
theorem c4_counterexample :
    str "data: \x7b\"type\":\"content_bl"
        ++ str "ock_delta\",\"delta\":\x7b\"text\":\"hi\"\x7d\x7d\n"
      = str "data: \x7b\"type\":\"content_block_delta\",\"delta\":\x7b\"text\":\"hi\"\x7d\x7d\n"
    ∧ (streamClaudeResponse
        [str "data: \x7b\"type\":\"content_block_delta\",\"delta\":\x7b\"text\":\"hi\"\x7d\x7d\n"]).events
      = [⟨str "content", str "hi", []⟩]
    ∧ (streamClaudeResponse
        [str "data: \x7b\"type\":\"content_bl",
         str "ock_delta\",\"delta\":\x7b\"text\":\"hi\"\x7d\x7d\n"]).events
      = []
    ∧ streamClaudeResponse
        [str "data: \x7b\"type\":\"content_block_delta\",\"delta\":\x7b\"text\":\"hi\"\x7d\x7d\n"]
      ≠ streamClaudeResponse
        [str "data: \x7b\"type\":\"content_bl",
         str "ock_delta\",\"delta\":\x7b\"text\":\"hi\"\x7d\x7d\n"] := by
  exact ⟨by decide, by decide, by decide, by decide⟩

/-- C4, amended — the parser's output is *not* invariant under how the
upstream byte stream is split into read chunks: there is a byte stream with
two chunkings (one delivering a content-delta frame whole, one splitting it
mid-line across two reads) on which the relay forwards one content event in
the first case and none at all in the second — the split frame is dropped,
not recognized once. -/
theorem c4_not_split_invariant :
    ∃ (bytes : Str) (single split : List Str),
      single.flatten = bytes
      ∧ split.flatten = bytes
      ∧ (streamClaudeResponse single).events.length = 1
      ∧ (streamClaudeResponse split).events = []
      ∧ streamClaudeResponse single ≠ streamClaudeResponse split := by
  refine ⟨str "data: \x7b\"type\":\"content_block_delta\",\"delta\":\x7b\"text\":\"hi\"\x7d\x7d\n",
    [str "data: \x7b\"type\":\"content_block_delta\",\"delta\":\x7b\"text\":\"hi\"\x7d\x7d\n"],
    [str "data: \x7b\"type\":\"content_bl",
     str "ock_delta\",\"delta\":\x7b\"text\":\"hi\"\x7d\x7d\n"],
    by decide, by decide, by decide, by decide, by decide⟩

/-! ### C6: conversation title truncation -/

/-- A 51-character message. -/
def c6LongMessage : Str := List.replicate 51 'a'

/-- The title the claim describes, following its words: the first 50
characters of the message, ellipsis-truncated if the message is longer
than 50 characters (for comparison with the source's `conversationTitle`). -/
def claimedTitle (m : Str) : Str :=
  if m.length ≤ 50 then m else m.take 50 ++ str "..."

/-- C6 counterexample — on a 51-character message the code produces the
first 47 characters followed by `"..."`; this differs from the claimed
"first 50 characters, ellipsis-truncated", and the message's first 50
characters are not even a prefix of the produced title. -/
theorem c6_counterexample :
    conversationTitle c6LongMessage ≠ claimedTitle c6LongMessage
    ∧ conversationTitle c6LongMessage = List.replicate 47 'a' ++ str "..."
    ∧ isPre (c6LongMessage.take 50) (conversationTitle c6LongMessage) = false := by
  exact ⟨by decide, by decide, by decide⟩

/-- C6, amended — a message of at most 50 characters becomes the title
unchanged; a longer message yields its first 47 characters followed by
`"..."`, a title of exactly 50 characters. -/
theorem c6_title_truncation (m : Str) :
    (m.length ≤ 50 → conversationTitle m = m)
    ∧ (50 < m.length →
        conversationTitle m = m.take 47 ++ str "..."
        ∧ (conversationTitle m).length = 50) := by
  constructor
  · intro h
    simp [conversationTitle, not_lt.mpr h]
  · intro h
    have hdots : (str "...").length = 3 := by decide
    have h1 : conversationTitle m = m.take 47 ++ str "..." := by
      simp [conversationTitle, h]
    refine ⟨h1, ?_⟩
    rw [h1]
    simp only [List.length_append, List.length_take, hdots]
    omega

/-- Witness for `c6_title_truncation` at the 51-character message. -/
theorem c6_witness :
    (50 < c6LongMessage.length
      ∧ (conversationTitle c6LongMessage = c6LongMessage.take 47 ++ str "..."
        ∧ (conversationTitle c6LongMessage).length = 50))
    ∧ (c6LongMessage.take 12).length ≤ 50
    ∧ conversationTitle (c6LongMessage.take 12) = c6LongMessage.take 12 :=
  ⟨⟨by decide, (c6_title_truncation c6LongMessage).2 (by decide)⟩,
   by decide, (c6_title_truncation (c6LongMessage.take 12)).1 (by decide)⟩

/-! ### C7: which frames carry `conversationId` -/

/-- C7 counterexample — `SendMessage` builds the terminal frame with
`formatStreamEvent("end", "", conversationID)`, so the `end` frame of a
successful relay call carries the conversation id (serialized, since
`omitempty` only drops empty strings); the claim says `end` frames never
carry one. -/
theorem c7_counterexample :
    (sendMessage ⟨[], [], 0⟩ (str "u") ⟨str "hi", []⟩ (.stream [])).outcome
      = .streamed [⟨str "start", [], str "c"⟩, ⟨str "end", [], str "c"⟩]
    ∧ (⟨str "end", [], str "c"⟩ : StreamEvent).conversationId ≠ [] := by
  exact ⟨by decide, by decide⟩

/-- C7, amended — in every streamed relay response there is a nonempty
conversation id `cid` such that `content` frames carry no conversation id
(empty string, dropped by `omitempty`) while every non-`content` frame
(`start`, `end`, `error`) carries `cid`. -/
theorem c7_conversation_id_fields (db : Db) (userID msg convId : Str)
    (hu : userID ≠ []) (hm : msg ≠ []) (upstream : UpstreamResult) :
    ∃ cid evs,
      cid ≠ []
      ∧ (sendMessage db userID ⟨msg, convId⟩ upstream).outcome = .streamed evs
      ∧ ∀ e ∈ evs,
          (e.eventType = str "content" → e.conversationId = [])
          ∧ (e.eventType ≠ str "content" → e.conversationId = cid) := by
  have hs : ((str "start" : Str) = str "content") → False := by decide
  have herr : ((str "error" : Str) = str "content") → False := by decide
  have hend : ((str "end" : Str) = str "content") → False := by decide
  by_cases hc : convId = []
  · have hcid : freshConversationId db ≠ [] := by simp [freshConversationId]
    cases upstream with
    | httpError body =>
      refine ⟨freshConversationId db,
        [formatStreamEvent (str "start") [] (freshConversationId db),
         formatStreamEvent (str "error") (str "Claude API error: " ++ body)
           (freshConversationId db)], hcid, ?_, ?_⟩
      · simp [sendMessage, hu, hm, hc, createConversation, insertMessage]
      · intro e he
        simp only [List.mem_cons, List.not_mem_nil, or_false] at he
        rcases he with rfl | rfl
        · exact ⟨fun h => absurd h hs, fun _ => rfl⟩
        · exact ⟨fun h => absurd h herr, fun _ => rfl⟩
    | stream chunks =>
      refine ⟨freshConversationId db,
        [formatStreamEvent (str "start") [] (freshConversationId db)]
          ++ (streamClaudeResponse chunks).events
          ++ [formatStreamEvent (str "end") [] (freshConversationId db)],
        hcid, ?_, ?_⟩
      · simp [sendMessage, hu, hm, hc, createConversation, insertMessage]
      · intro e he
        have hspec := (streamClaudeResponse_spec chunks).1
        simp only [List.mem_append, List.mem_cons, List.not_mem_nil,
          or_false] at he
        rcases he with (rfl | he) | rfl
        · exact ⟨fun h => absurd h hs, fun _ => rfl⟩
        · obtain ⟨ht, hcid0⟩ := hspec e he
          exact ⟨fun _ => hcid0, fun hne => absurd ht hne⟩
        · exact ⟨fun h => absurd h hend, fun _ => rfl⟩
  · cases upstream with
    | httpError body =>
      refine ⟨convId,
        [formatStreamEvent (str "start") [] convId,
         formatStreamEvent (str "error") (str "Claude API error: " ++ body)
           convId], hc, ?_, ?_⟩
      · simp [sendMessage, hu, hm, hc, insertMessage]
      · intro e he
        simp only [List.mem_cons, List.not_mem_nil, or_false] at he
        rcases he with rfl | rfl
        · exact ⟨fun h => absurd h hs, fun _ => rfl⟩
        · exact ⟨fun h => absurd h herr, fun _ => rfl⟩
    | stream chunks =>
      refine ⟨convId,
        [formatStreamEvent (str "start") [] convId]
          ++ (streamClaudeResponse chunks).events
          ++ [formatStreamEvent (str "end") [] convId],
        hc, ?_, ?_⟩
      · simp [sendMessage, hu, hm, hc, insertMessage]
      · intro e he
        have hspec := (streamClaudeResponse_spec chunks).1
        simp only [List.mem_append, List.mem_cons, List.not_mem_nil,
          or_false] at he
        rcases he with (rfl | he) | rfl
        · exact ⟨fun h => absurd h hs, fun _ => rfl⟩
        · obtain ⟨ht, hcid0⟩ := hspec e he
          exact ⟨fun _ => hcid0, fun hne => absurd ht hne⟩
        · exact ⟨fun h => absurd h hend, fun _ => rfl⟩

/-- Witness for `c7_conversation_id_fields`. -/
theorem c7_witness :
    (str "u" ≠ ([] : Str) ∧ str "hi" ≠ ([] : Str))
    ∧ ∃ cid evs,
        cid ≠ []
        ∧ (sendMessage ⟨[], [], 0⟩ (str "u") ⟨str "hi", []⟩
            (.stream [])).outcome = .streamed evs
        ∧ ∀ e ∈ evs,
            (e.eventType = str "content" → e.conversationId = [])
            ∧ (e.eventType ≠ str "content" → e.conversationId = cid) :=
  ⟨⟨by decide, by decide⟩,
   c7_conversation_id_fields ⟨[], [], 0⟩ (str "u") (str "hi") []
     (by decide) (by decide) (.stream [])⟩

/-! ### C8: ownership check in `GetHistory` -/

/-- C8 — `GetHistory` returns rows only after the `EXISTS` check finds a
conversation with the requested id owned by the requesting subject, and for
a requester the outcome on a conversation owned by someone else is the same
single `notFound` outcome as on a nonexistent conversation id. -/
theorem c8_ownership_isolation (db : Db) (userID cid1 cid2 : Str)
    (hu : userID ≠ []) (h1 : cid1 ≠ []) (h2 : cid2 ≠ [])
    (hother : ∀ c ∈ db.conversations, c.id = cid1 → c.userId ≠ userID)
    (hmissing : ∀ c ∈ db.conversations, c.id ≠ cid2) :
    getHistory db userID cid1 = .notFound
    ∧ getHistory db userID cid2 = .notFound
    ∧ getHistory db userID cid1 = getHistory db userID cid2
    ∧ ∀ cid msgs, getHistory db userID cid = .ok msgs →
        ∃ c ∈ db.conversations, c.id = cid ∧ c.userId = userID := by
  have e1 : ¬ ∃ c ∈ db.conversations, c.id = cid1 ∧ c.userId = userID := by
    rintro ⟨c, hcmem, hid, huid⟩
    exact hother c hcmem hid huid
  have e2 : ¬ ∃ c ∈ db.conversations, c.id = cid2 ∧ c.userId = userID := by
    rintro ⟨c, hcmem, hid, _⟩
    exact hmissing c hcmem hid
  have g1 : getHistory db userID cid1 = .notFound := by
    simp [getHistory, hu, h1, e1]
  have g2 : getHistory db userID cid2 = .notFound := by
    simp [getHistory, hu, h2, e2]
  refine ⟨g1, g2, g1.trans g2.symm, ?_⟩
  intro cid msgs hok
  by_cases hcid : cid = []
  · simp [getHistory, hu, hcid] at hok
  · by_cases hex : ∃ c ∈ db.conversations, c.id = cid ∧ c.userId = userID
    · exact hex
    · simp [getHistory, hu, hcid, hex] at hok

/-- Witness for `c8_ownership_isolation`: a store holding one conversation
`"a"` owned by subject `"B"`, queried by subject `"A"` for `"a"` (owned by
someone else) and `"z"` (nonexistent). -/
theorem c8_witness :
    ((str "A" : Str) ≠ [] ∧ (str "a" : Str) ≠ [] ∧ (str "z" : Str) ≠ []
      ∧ (∀ c ∈ (⟨[⟨str "a", str "B", str "t"⟩], [], 1⟩ : Db).conversations,
          c.id = str "a" → c.userId ≠ str "A")
      ∧ (∀ c ∈ (⟨[⟨str "a", str "B", str "t"⟩], [], 1⟩ : Db).conversations,
          c.id ≠ str "z"))
    ∧ (getHistory ⟨[⟨str "a", str "B", str "t"⟩], [], 1⟩ (str "A") (str "a")
          = .notFound
      ∧ getHistory ⟨[⟨str "a", str "B", str "t"⟩], [], 1⟩ (str "A") (str "z")
          = .notFound
      ∧ getHistory ⟨[⟨str "a", str "B", str "t"⟩], [], 1⟩ (str "A") (str "a")
          = getHistory ⟨[⟨str "a", str "B", str "t"⟩], [], 1⟩ (str "A") (str "z")
      ∧ ∀ cid msgs,
          getHistory ⟨[⟨str "a", str "B", str "t"⟩], [], 1⟩ (str "A") cid
            = .ok msgs →
          ∃ c ∈ (⟨[⟨str "a", str "B", str "t"⟩], [], 1⟩ : Db).conversations,
            c.id = cid ∧ c.userId = str "A") :=
  ⟨⟨by decide, by decide, by decide, by decide, by decide⟩,
   c8_ownership_isolation ⟨[⟨str "a", str "B", str "t"⟩], [], 1⟩
     (str "A") (str "a") (str "z")
     (by decide) (by decide) (by decide) (by decide) (by decide)⟩

/-! ### C9: empty message is rejected before any write -/

/-- C9 — a relay call with an empty inbound message is rejected with the
400 validation error and the store is returned exactly as it was: no
conversation row and no message row is written, whether or not a
conversation id was supplied. -/
theorem c9_empty_message_rejected (db : Db) (userID convId : Str)
    (hu : userID ≠ []) (upstream : UpstreamResult) :
    sendMessage db userID ⟨[], convId⟩ upstream
      = ⟨db, .httpError 400 (str "Message is required")⟩ := by
  simp [sendMessage, hu]

/-- Witness for `c9_empty_message_rejected`: a store with one existing
message is untouched by an empty-message call addressed at an existing
conversation id. -/
theorem c9_witness :
    (str "u" ≠ ([] : Str))
    ∧ sendMessage ⟨[], [⟨str "c0", str "user", str "old"⟩], 3⟩ (str "u")
        ⟨[], str "c0"⟩ (.stream [])
      = ⟨⟨[], [⟨str "c0", str "user", str "old"⟩], 3⟩,
         .httpError 400 (str "Message is required")⟩ :=
  ⟨by decide,
   c9_empty_message_rejected ⟨[], [⟨str "c0", str "user", str "old"⟩], 3⟩
     (str "u") (str "c0") (by decide) (.stream [])⟩

end DashGPT
